import Mathlib

/-!
Verification of the Rust language-runtime adapter (`pkg/runtime/rust/rust.go`).

The development shallowly embeds the Go source of the adapter: the string and
path manipulation mirrors the Go `strings` and `path/filepath` packages
(Unix flavor), filesystem and process effects are passed in explicitly as
oracles, and the mutable adapter map becomes explicit state passing.
-/

namespace SstRust

/-! ## Go `strings` helpers -/

/-- Model of `strings.HasPrefix`. -/
def hasPfx (s pre : String) : Bool :=
  pre.data.isPrefixOf s.data

/-- Model of `strings.HasSuffix`. -/
def hasSfx (s suf : String) : Bool :=
  suf.data.reverse.isPrefixOf s.data.reverse

/-- Model of `strings.TrimSuffix`. -/
def trimSfx (s suf : String) : String :=
  if hasSfx s suf then String.mk (s.data.take (s.data.length - suf.data.length)) else s

/-- Model of `strings.Join(elems, ",")`. -/
def joinComma : List String → String
  | [] => ""
  | [s] => s
  | s :: rest => s ++ "," ++ joinComma rest

/-- Join path segments with the separator, as `strings.Join(elems, "/")`. -/
def segsJoin : List String → String
  | [] => ""
  | [s] => s
  | s :: rest => s ++ "/" ++ segsJoin rest

/-! ## Go `path/filepath` helpers (Unix separator) -/

/-- Split a character list at every separator character. -/
def splitSlashes : List Char → List (List Char)
  | [] => [[]]
  | c :: rest =>
    let r := splitSlashes rest
    if c = '/' then [] :: r
    else
      match r with
      | [] => [[c]]
      | s :: ss => (c :: s) :: ss

/-- Split a path string into its slash-separated segments. -/
def splitSegs (s : String) : List String :=
  (splitSlashes s.data).map String.mk

/-- One step of the lexical-cleaning stack (stack kept reversed):
drop empty and `.` segments, resolve `..` against the stack. -/
def cleanPush (rooted : Bool) (acc : List String) (seg : String) : List String :=
  if seg = "" ∨ seg = "." then acc
  else if seg = ".." then
    match acc with
    | [] => if rooted then [] else [".."]
    | a :: rest => if a = ".." then ".." :: a :: rest else rest
  else seg :: acc

/-- Model of `filepath.Clean` (Unix): lexical shortest equivalent path. -/
def goClean (p : String) : String :=
  if p = "" then "." else
  let rooted := hasPfx p "/"
  let stack := (splitSegs p).foldl (cleanPush rooted) []
  let body := segsJoin stack.reverse
  if rooted then (if body = "" then "/" else "/" ++ body)
  else (if body = "" then "." else body)

/-- Model of `filepath.Base` (Unix): last element after stripping trailing
separators; `"."` for the empty path, `"/"` for an all-separator path. -/
def goBase (p : String) : String :=
  if p = "" then "." else
  let r := p.data.reverse.dropWhile (fun c => c = '/')
  let b := r.takeWhile (fun c => c ≠ '/')
  if b = [] then "/" else String.mk b.reverse

/-- Model of `filepath.Ext`: the suffix of the final element starting at its
last dot, empty if the final element has no dot. -/
def goExt (p : String) : String :=
  let finalRev := p.data.reverse.takeWhile (fun c => c ≠ '/')
  if finalRev.dropWhile (fun c => c ≠ '.') = [] then ""
  else String.mk ((finalRev.takeWhile (fun c => c ≠ '.') ++ ['.']).reverse)

/-- Model of `filepath.Dir` (Unix): everything but the last element,
cleaned; `"."` when the path holds no separator. -/
def goDir (p : String) : String :=
  goClean (String.mk (p.data.reverse.dropWhile (fun c => c ≠ '/')).reverse)

/-- Model of variadic `filepath.Join`: skip leading empty elements, join the
rest with the separator, and clean; empty when every element is empty. -/
def goJoinList : List String → String
  | [] => ""
  | e :: rest => if e = "" then goJoinList rest else goClean (segsJoin (e :: rest))

/-- The segment view `filepath.Rel` walks over: cleaned `""` has no
segments and cleaned `"/"` has the single empty segment. -/
def relSegs (p : String) : List String :=
  if p = "" then [] else if p = "/" then [""] else splitSegs p

/-- Drop the longest common segment prefix of two segment lists. -/
def dropCommon : List String → List String → List String × List String
  | b :: bs, t :: ts => if b = t then dropCommon bs ts else (b :: bs, t :: ts)
  | bs, ts => (bs, ts)

/-- Model of `filepath.Rel` (Unix): the relative path from `basep` to
`targp`, `none` on the error cases (mixed absolute/relative arguments, or a
`..` segment left in the base after the common prefix). -/
def goRel (basep targp : String) : Option String :=
  let base := goClean basep
  let targ := goClean targp
  if targ = base then some "." else
  let base1 := if base = "." then "" else base
  if (hasPfx base1 "/") ≠ (hasPfx targ "/") then none else
  match dropCommon (relSegs base1) (relSegs targ) with
  | (restBase, restTarg) =>
    match restBase with
    | [] => some (segsJoin restTarg)
    | b :: _ =>
      if b = ".." then none
      else some (segsJoin (List.replicate restBase.length ".." ++ restTarg))

/-- Model of `filepath.Abs`: clean an absolute path, otherwise join onto the
working directory (supplied explicitly). -/
def goAbs (cwd p : String) : String :=
  if hasPfx p "/" then goClean p else goJoinList [cwd, p]

/-! ## Data model of the adapter (`rust.go`) -/

/-- The `[build] target-dir` section of a cargo config file (`CargoConfigBuild`). -/
structure CargoConfigBuild where
  targetDir : Option String
deriving DecidableEq

/-- Cargo config override file contents (`CargoConfig`). -/
structure CargoConfig where
  build : CargoConfigBuild
deriving DecidableEq

/-- One `[[bin]]` entry of a Cargo manifest (`CargoTomlBin`). -/
structure CargoTomlBin where
  name : String
  requiredFeatures : List String
deriving DecidableEq

/-- Cargo manifest contents (`CargoToml`). -/
structure CargoToml where
  bin : List CargoTomlBin
deriving DecidableEq

/-- Build-time properties blob (`Properties`); the Go zero value has an
empty architecture string. -/
structure Properties where
  architecture : String
deriving DecidableEq

/-- Zero value of `CargoToml`, left in place when decoding fails. -/
def CargoToml.zero : CargoToml := ⟨[]⟩

/-- Zero value of `CargoConfig`, left in place when decoding fails. -/
def CargoConfig.zero : CargoConfig := ⟨⟨none⟩⟩

/-- Zero value of `Properties`, left in place when unmarshalling fails. -/
def Properties.zero : Properties := ⟨""⟩

/-- Modelled from the spec: the orchestrator `runtime.BuildInput`
(BuildRequest) — function identifier, handler path, properties blob
(represented by its JSON parse outcome, `none` for malformed JSON),
development-mode flag, and the requested output directory `Out()`. -/
structure BuildInput where
  functionID : String
  handler : String
  properties : Option Properties
  dev : Bool
  out : String

/-- Modelled from the spec: the orchestrator `runtime.BuildOutput`
(BuildResult) — handler invocation name, source maps, error list, output
directory; the Go zero values are empty strings and empty lists. -/
structure BuildOutput where
  handler : String
  sourcemaps : List String
  errors : List String
  out : String
deriving DecidableEq

/-- How the output of a spawned command is captured. -/
inductive CaptureMode where
  | combined
  | pipes
deriving DecidableEq

/-- A composed external command: program, arguments, working directory,
environment, and output-capture mode. -/
structure CmdSpec where
  prog : String
  args : List String
  dir : String
  env : List String
  capture : CaptureMode
deriving DecidableEq

/-- Outcome of running an external command to completion. -/
structure CmdResult where
  exitOk : Bool
  output : String
deriving DecidableEq

/-- Explicit filesystem state threaded through `copyFile`: file contents by
path, directory existence, and whether a path has been flushed to stable
storage. -/
structure FS where
  files : String → Option (List Nat)
  dirExists : String → Bool
  synced : String → Bool

/-- The adapter instance state: the `directories` map from function
identifier to recorded project root (`Runtime.directories`). -/
structure AdapterState where
  directories : String → Option String

/-- The chain of a directory and its ancestors obtained by repeated
`filepath.Dir`, bounded by fuel; the walk stops at the fixpoint. -/
def parentChain : Nat → String → List String
  | 0, d => [d]
  | n + 1, d =>
    let p := goDir d
    if p = d then [d] else d :: parentChain n p

/-- Model of `os.MkdirAll`: mark a directory and all of its ancestors as existing. -/
def mkdirAllMark (fs : FS) (d : String) : FS :=
  { fs with dirExists := fun x => fs.dirExists x || decide (x ∈ parentChain (d.length + 2) d) }

/-- Model of `copyFile`: open the source (failure if absent), create the
destination parent directories, write the source bytes to the
destination, and flush it; the returned flag reports success. -/
def copyFile (fs : FS) (src dst : String) : FS × Bool :=
  match fs.files src with
  | none => (fs, false)
  | some bytes =>
    let fs1 := mkdirAllMark fs (goDir dst)
    ({ fs1 with
        files := fun p => if p = dst then some bytes else fs1.files p,
        synced := fun p => if p = dst then true else fs1.synced p }, true)

/-! ## Config-override discovery (`FindClosestCargoConfig`) -/

/-- The contribution of one directory to the config search: the `.cargo`
subdirectory must exist, then `config.toml` is preferred over `config`. -/
def configAt (stat : String → Bool) (dir : String) : Option String :=
  let cargoDir := goJoinList [dir, ".cargo"]
  if stat cargoDir then
    let c1 := goJoinList [cargoDir, "config.toml"]
    if stat c1 then some c1 else
    let c2 := goJoinList [cargoDir, "config"]
    if stat c2 then some c2 else none
  else none

/-- The upward walk of `FindClosestCargoConfig`, fuel-bounded: try the
current directory, then move to the parent, stopping at the root fixpoint.
Mirrors the Go loop, in which a directory whose `.cargo` subdirectory
holds neither accepted file does not stop the walk. -/
def findCargoConfigFuel (stat : String → Bool) : Nat → String → Option String
  | 0, _ => none
  | n + 1, dir =>
    match configAt stat dir with
    | some f => some f
    | none =>
      let parent := goDir dir
      if parent = dir then none else findCargoConfigFuel stat n parent

/-- Model of `FindClosestCargoConfig`: the fuel `length + 2` bounds the
walk, which shortens the directory string at every step except the final
steps through `"."` or `"/"`. -/
def FindClosestCargoConfig (stat : String → Bool) (startingPath : String) : Option String :=
  findCargoConfigFuel stat (startingPath.length + 2) startingPath

/-! ## The adapter operations -/

/-- Model of `Runtime.Match`. -/
def Match (runtimeId : String) : Bool :=
  runtimeId == "rust"

/-- Model of `Runtime.ShouldRebuild`: extension filter, recorded-root
lookup, relativization, then the string-prefix test against `".."`. -/
def ShouldRebuild (st : AdapterState) (functionID file : String) : Bool :=
  if ! hasSfx file ".rs" then false
  else
    match st.directories functionID with
    | none => false
    | some root =>
      match goRel root file with
      | none => false
      | some rel => ! hasPfx rel ".."

/-- Required features of the first matching `[[bin]]` entry; empty when no entry
matches (the Go loop over `cargoToml.Bin` with `break`). -/
def findFeatures : List CargoTomlBin → String → List String
  | [], _ => []
  | b :: rest, n => if b.name = n then b.requiredFeatures else findFeatures rest n

/-- The argument list composed by `Build`, mirroring the Go appends. -/
def buildArgs (handlerName : String) (dev : Bool) (arch : String)
    (requiredFeatures : List String) : List String :=
  let args := ["lambda", "build", "--bin", handlerName]
  let args := if ¬ dev then args ++ ["--release"] else args
  let args := if arch = "arm_64" then args ++ ["--arm64"] else args
  let args := args ++ ["--no-default-features"]
  if requiredFeatures.length > 0 then
    args ++ ["--features", joinComma requiredFeatures]
  else args

/-- External-effect oracles a build runs against: the `fs.FindUp` outcome,
TOML parse outcomes per file (`none` for malformed files), `os.Stat`,
command execution, `os.Environ()`, the working directory for
`filepath.Abs`, and the filesystem. -/
structure BuildEnv where
  findUp : Except String String
  parseManifest : String → Option CargoToml
  stat : String → Bool
  parseConfig : String → Option CargoConfig
  runCmd : CmdSpec → CmdResult
  osEnv : List String
  cwd : String
  fs : FS

/-- Observable effects of one `Build` call: the external command issued, the
copy performed (source and destination), and the filesystem afterwards. -/
structure BuildTrace where
  cmd : Option CmdSpec
  copied : Option (String × String)
  fs : FS

/-- Result, state and effects of one `Build` call. -/
structure BuildOutcome where
  result : Except String BuildOutput
  state : AdapterState
  trace : BuildTrace

/-- The command `Build` composes for a located manifest file `mf`:
`cargo` with `buildArgs`, run in the project root with the inherited
environment and combined output capture. -/
def buildCmdSpec (env : BuildEnv) (input : BuildInput) (mf : String) : CmdSpec :=
  let properties := input.properties.getD Properties.zero
  let handlerName := trimSfx (goBase input.handler) (goExt input.handler)
  let root := goDir mf
  let cargoToml := (env.parseManifest mf).getD CargoToml.zero
  let requiredFeatures := findFeatures cargoToml.bin handlerName
  { prog := "cargo",
    args := buildArgs handlerName input.dev properties.architecture requiredFeatures,
    dir := root,
    env := env.osEnv,
    capture := CaptureMode.combined }

/-- The effective cargo config `Build` uses: the decoded override when the
search finds a file and it parses, else the zero value. -/
def effectiveConfig (env : BuildEnv) (root : String) : CargoConfig :=
  match FindClosestCargoConfig env.stat root with
  | some f => (env.parseConfig f).getD CargoConfig.zero
  | none => CargoConfig.zero

/-- Model of `Runtime.Build`, mirroring the Go control flow: locate the
manifest (propagating failure), derive the handler name, read metadata
permissively, compose and run the command; on failure wrap the combined
output into the error list, on success copy the produced binary and record
the absolute project root. -/
def Build (st : AdapterState) (env : BuildEnv) (input : BuildInput) : BuildOutcome :=
  match env.findUp with
  | Except.error e =>
    { result := Except.error e, state := st,
      trace := { cmd := none, copied := none, fs := env.fs } }
  | Except.ok mf =>
    let handlerName := trimSfx (goBase input.handler) (goExt input.handler)
    let root := goDir mf
    let out := input.out
    let cargoConfig := effectiveConfig env root
    let cmd := buildCmdSpec env input mf
    let res := env.runCmd cmd
    if res.exitOk = false then
      { result := Except.ok { handler := "", sourcemaps := [], errors := [res.output], out := "" },
        state := st,
        trace := { cmd := some cmd, copied := none, fs := env.fs } }
    else
      let targetPath :=
        match cargoConfig.build.targetDir with
        | some td => goJoinList [root, td]
        | none => goJoinList [root, "target"]
      let src := goJoinList [targetPath, "lambda", handlerName, "bootstrap"]
      let dst := goJoinList [out, "bootstrap"]
      let fs1 := (copyFile env.fs src dst).1
      let st1 : AdapterState :=
        { directories := fun k =>
            if k = input.functionID then some (goAbs env.cwd root) else st.directories k }
      { result := Except.ok { handler := "bootstrap", sourcemaps := [], errors := [], out := out },
        state := st1,
        trace := { cmd := some cmd, copied := some (src, dst), fs := fs1 } }

/-- Modelled from the spec: `fs.FindUp` (the ProjectLocator, not under
`src/`) — walk upward from a directory looking for the named manifest
file, failing with a not-found error when no ancestor up to the
filesystem root has it. -/
def findUpFuel (stat : String → Bool) (name : String) : Nat → String → Except String String
  | 0, _ => Except.error "NotFoundError"
  | n + 1, dir =>
    let cand := goJoinList [dir, name]
    if stat cand then Except.ok cand
    else
      let parent := goDir dir
      if parent = dir then Except.error "NotFoundError"
      else findUpFuel stat name n parent

/-- Modelled from the spec: `fs.FindUp(handler, "Cargo.toml")` starts the
walk at the handler directory. -/
def findUpFrom (stat : String → Bool) (handler : String) : Except String String :=
  findUpFuel stat "Cargo.toml" ((goDir handler).length + 2) (goDir handler)

/-- Modelled from the spec: the orchestrator `runtime.RunInput` — the
local invocation endpoint, the caller-supplied environment, and the build
output directory of the build result and handler name. -/
structure RunInput where
  server : String
  env : List String
  buildOut : String
  buildHandler : String

/-- Observable shape of the worker process `Run` spawns: program path,
working directory, environment, piped capture of both streams, and the
fact that `Run` starts the process without waiting for completion. -/
structure WorkerSpawn where
  prog : String
  dir : String
  env : List String
  capture : CaptureMode
  waited : Bool
deriving DecidableEq

/-- Model of `Runtime.Run`: spawn the built artifact from the build output
directory with the endpoint variable appended, capture both streams as
pipes, and return without waiting. -/
def Run (input : RunInput) : WorkerSpawn :=
  { prog := goJoinList [input.buildOut, input.buildHandler],
    dir := input.buildOut,
    env := input.env ++ ["AWS_LAMBDA_RUNTIME_API=" ++ input.server],
    capture := CaptureMode.pipes,
    waited := false }

/-- The artifact name `Build` derives: the handler base file name with
its extension stripped (`handlerName` in the Go source). -/
def artifactName (handler : String) : String :=
  trimSfx (goBase handler) (goExt handler)

/-- The required-feature list `Build` reads for a handler from the parsed
manifest, with the permissive empty default. -/
def manifestFeatures (env : BuildEnv) (mf handler : String) : List String :=
  findFeatures ((env.parseManifest mf).getD CargoToml.zero).bin (artifactName handler)

/-- The target directory `Build` resolves: the override `target-dir`
joined under the project root when present, else `root/target`. -/
def buildTargetPath (env : BuildEnv) (root : String) : String :=
  match (effectiveConfig env root).build.targetDir with
  | some td => goJoinList [root, td]
  | none => goJoinList [root, "target"]

/-- The artifact path `Build` expects the toolchain to produce:
`<targetDir>/lambda/<artifactName>/bootstrap`. -/
def buildArtifactSrc (env : BuildEnv) (input : BuildInput) (mf : String) : String :=
  goJoinList [buildTargetPath env (goDir mf), "lambda", artifactName input.handler, "bootstrap"]

/-! ## Log fan-in (`Worker.Logs`) as a step relation -/

/-- State of the `Logs` fan-in: bytes remaining on each captured stream,
bytes already written to the merged pipe, and whether the pipe writer has
been closed. -/
structure LogsState where
  outRem : List Nat
  errRem : List Nat
  emitted : List Nat
  closed : Bool
deriving DecidableEq

/-- Steps of the `Logs` fan-in: the two copy goroutines each move one byte
from their stream into the open pipe, and the closing goroutine closes the
writer only after the wait group finishes, that is once both copies have
drained their streams. -/
inductive LogsStep : LogsState → LogsState → Prop
  | copyOut (b : Nat) (os es em : List Nat) :
      LogsStep ⟨b :: os, es, em, false⟩ ⟨os, es, em ++ [b], false⟩
  | copyErr (b : Nat) (os es em : List Nat) :
      LogsStep ⟨os, b :: es, em, false⟩ ⟨os, es, em ++ [b], false⟩
  | close (em : List Nat) :
      LogsStep ⟨[], [], em, false⟩ ⟨[], [], em, true⟩

/-- Reachability in the `Logs` fan-in. -/
def LogsReach : LogsState → LogsState → Prop :=
  Relation.ReflTransGen LogsStep

/-- Relation `Merge xs ys zs`: `zs` is an order-preserving interleaving of `xs` and
`ys` — every byte of both inputs appears exactly once, for each stream the
internal order kept. -/
inductive Merge : List Nat → List Nat → List Nat → Prop
  | nil : Merge [] [] []
  | left {x : Nat} {xs ys zs : List Nat} : Merge xs ys zs → Merge (x :: xs) ys (x :: zs)
  | right {y : Nat} {xs ys zs : List Nat} : Merge xs ys zs → Merge xs (y :: ys) (y :: zs)

/-- Invariant of the `Logs` fan-in run from streams `o` and `e`: the
consumed prefixes of both streams merge into the emitted bytes, and the
pipe is closed only with both streams drained. -/
def LogsInv (o e : List Nat) (s : LogsState) : Prop :=
  (∃ oc ec, o = oc ++ s.outRem ∧ e = ec ++ s.errRem ∧ Merge oc ec s.emitted) ∧
  (s.closed = true → s.outRem = [] ∧ s.errRem = [])

/-! ## Claim-side definitions used to compare the spec against the code -/

/-- Stated from the claim, for comparison with `FindClosestCargoConfig`:
a config search whose walk stops at the first ancestor whose `.cargo`
subdirectory exists, whether or not either accepted file is inside it. -/
def claimConfigSearch (stat : String → Bool) : Nat → String → Option String
  | 0, _ => none
  | n + 1, dir =>
    if stat (goJoinList [dir, ".cargo"]) then configAt stat dir
    else
      let parent := goDir dir
      if parent = dir then none else claimConfigSearch stat n parent

/-- First configuration hit along a list of directories: the find-first
characterization the walk of the code is compared against. -/
def firstConfigHit (stat : String → Bool) : List String → Option String
  | [] => none
  | d :: ds =>
    match configAt stat d with
    | some f => some f
    | none => firstConfigHit stat ds

/-- Stated from the claim: a relative path "begins with a parent-directory
traversal segment" when it is `".."` or starts with `"../"`. -/
def beginsParentSeg (rel : String) : Bool :=
  rel = ".." || hasPfx rel "../"

/-! ## Concrete fixtures for witnesses and counterexamples -/

/-- An empty filesystem fixture. -/
def fsEmpty : FS :=
  { files := fun _ => none, dirExists := fun _ => false, synced := fun _ => false }

/-- Adapter-state fixture recording the root `/root` for function `"f"`. -/
def stC : AdapterState :=
  ⟨fun fid => if fid = "f" then some "/root" else none⟩

/-- Stat fixture for the config-search counterexample: `/a/b/.cargo`
exists but holds neither accepted file, while `/a/.cargo/config.toml`
exists higher up. -/
def statB : String → Bool :=
  fun p => p = "/a/b/.cargo" || p = "/a/.cargo" || p = "/a/.cargo/config.toml"

/-- Build-environment fixture: manifest at `/proj/Cargo.toml` declaring
`main` with features `a`, `b`; no config override; the command succeeds
with empty output; a single artifact file on disk. -/
def envA : BuildEnv :=
  { findUp := Except.ok "/proj/Cargo.toml",
    parseManifest := fun _ => some ⟨[⟨"main", ["a", "b"]⟩]⟩,
    stat := fun _ => false,
    parseConfig := fun _ => none,
    runCmd := fun _ => { exitOk := true, output := "" },
    osEnv := ["PATH=/bin"],
    cwd := "/w",
    fs := { files := fun p => if p = "/proj/target/lambda/main/bootstrap" then some [7, 9] else none,
            dirExists := fun _ => false, synced := fun _ => false } }

/-- Build-input fixture matching `envA`: an arm64 release build of
`src/main.rs` into `/outdir`. -/
def inputA : BuildInput :=
  { functionID := "fid", handler := "/proj/src/main.rs",
    properties := some ⟨"arm_64"⟩, dev := false, out := "/outdir" }

/-- Build-environment fixture whose command fails with output `"boom"`. -/
def envF : BuildEnv :=
  { envA with runCmd := fun _ => { exitOk := false, output := "boom" } }

/-- Build-environment fixture in which every metadata parse fails and a
config override file is present but malformed. -/
def envM : BuildEnv :=
  { envA with
    parseManifest := fun _ => none,
    stat := fun p => p = "/proj/.cargo" || p = "/proj/.cargo/config.toml",
    parseConfig := fun _ => none }

/-- Build-input fixture with a malformed properties blob. -/
def inputM : BuildInput :=
  { inputA with properties := none }

/-- Stat fixture with no files at all, for the locator-failure witness. -/
def statNone : String → Bool :=
  fun _ => false

/-- Build-environment fixture whose project locator finds no manifest. -/
def envNF : BuildEnv :=
  { envA with findUp := findUpFrom statNone "/proj/src/main.rs" }

/-- Initial adapter state with an empty directory map. -/
def stEmpty : AdapterState :=
  ⟨fun _ => none⟩

/-! ## Helper lemmas -/

/-- The incremental appends of `buildArgs` produce the flag layout
`--bin`, optional `--release`, optional `--arm64`, `--no-default-features`,
optional `--features`. -/
theorem buildArgs_shape (n : String) (dev : Bool) (arch : String) (feats : List String) :
    buildArgs n dev arch feats =
      ["lambda", "build", "--bin", n]
        ++ (if dev then [] else ["--release"])
        ++ (if arch = "arm_64" then ["--arm64"] else [])
        ++ ["--no-default-features"]
        ++ (match feats with
            | [] => []
            | _ :: _ => ["--features", joinComma feats]) := by
  cases dev <;> cases feats <;>
    by_cases harch : arch = "arm_64" <;>
      simp [buildArgs, harch]

/-- A directory is the first entry of its own parent chain. -/
theorem mem_parentChain_self (n : Nat) (d : String) : d ∈ parentChain n d := by
  cases n with
  | zero => simp [parentChain]
  | succ m =>
    simp only [parentChain]
    split <;> simp

/-- When no directory of the bounded ancestor chain holds the searched
file, the upward walk reports the not-found error. -/
theorem findUpFuel_not_found (stat : String → Bool) (name : String) :
    ∀ (n : Nat) (d : String),
      (∀ x ∈ parentChain n d, stat (goJoinList [x, name]) = false) →
      findUpFuel stat name n d = Except.error "NotFoundError" := by
  intro n
  induction n with
  | zero => intro d _; rfl
  | succ m ih =>
    intro d hall
    have hd : stat (goJoinList [d, name]) = false :=
      hall d (mem_parentChain_self (m + 1) d)
    simp only [findUpFuel, hd, Bool.false_eq_true, if_false]
    by_cases hp : goDir d = d
    · rw [if_pos hp]
    · rw [if_neg hp]
      apply ih
      intro x hx
      apply hall
      simp only [parentChain]
      rw [if_neg hp]
      exact List.mem_cons_of_mem d hx

/-! ## Claim theorems -/

/-- C10: `Match` accepts exactly the runtime identifier `"rust"`. -/
theorem match_rust_iff (r : String) : Match r = true ↔ r = "rust" := by
  simp [Match]

/-- Witness for C10: `"rust"` matches and nearby identifiers do not. -/
theorem match_rust_iff_witness :
    Match "rust" = true ∧ Match "Rust" = false ∧ Match "rust2021" = false ∧
      Match "" = false :=
  ⟨(match_rust_iff "rust").mpr rfl, by decide, by decide, by decide⟩

/-- C9: `Run` spawns the built artifact from the build output directory as
working directory, with the caller environment extended by exactly the one
endpoint variable, both streams captured as pipes, without waiting. -/
theorem run_spawn_shape (input : RunInput) :
    Run input =
      { prog := goJoinList [input.buildOut, input.buildHandler],
        dir := input.buildOut,
        env := input.env ++ ["AWS_LAMBDA_RUNTIME_API=" ++ input.server],
        capture := CaptureMode.pipes,
        waited := false } ∧
    (Run input).env.length = input.env.length + 1 ∧
    (∀ v ∈ input.env, v ∈ (Run input).env) ∧
    ("AWS_LAMBDA_RUNTIME_API=" ++ input.server) ∈ (Run input).env := by
  refine ⟨rfl, by simp [Run], ?_, by simp [Run]⟩
  intro v hv
  simp [Run]
  exact Or.inl hv

/-- Witness for C9: spawning a worker for `/outdir/bootstrap` against the
endpoint `http://localhost:1` with one caller variable. -/
theorem run_spawn_shape_witness :
    Run { server := "http://localhost:1", env := ["A=1"],
          buildOut := "/outdir", buildHandler := "bootstrap" } =
      { prog := "/outdir/bootstrap", dir := "/outdir",
        env := ["A=1", "AWS_LAMBDA_RUNTIME_API=http://localhost:1"],
        capture := CaptureMode.pipes, waited := false } ∧
    ("AWS_LAMBDA_RUNTIME_API=http://localhost:1" : String) ∈
      (Run { server := "http://localhost:1", env := ["A=1"],
             buildOut := "/outdir", buildHandler := "bootstrap" }).env := by
  have h := run_spawn_shape
    { server := "http://localhost:1", env := ["A=1"],
      buildOut := "/outdir", buildHandler := "bootstrap" }
  exact ⟨h.1.trans (by decide), h.2.2.2⟩

/-- C1: for a located manifest, `Build` composes
`cargo lambda build --bin <artifact>` with `--release` exactly when not in
development mode, `--arm64` exactly for the `arm_64` architecture, always
`--no-default-features`, and `--features` with the comma-joined manifest
feature list exactly when it is non-empty; the command runs in the project
root with the inherited environment, capturing combined output. -/
theorem build_command_composition (st : AdapterState) (env : BuildEnv) (input : BuildInput)
    (mf : String) (h : env.findUp = Except.ok mf) :
    (Build st env input).trace.cmd = some
      { prog := "cargo",
        args := ["lambda", "build", "--bin", artifactName input.handler]
          ++ (if input.dev then [] else ["--release"])
          ++ (if (input.properties.getD Properties.zero).architecture = "arm_64" then
                ["--arm64"] else [])
          ++ ["--no-default-features"]
          ++ (match manifestFeatures env mf input.handler with
              | [] => []
              | _ :: _ => ["--features", joinComma (manifestFeatures env mf input.handler)]),
        dir := goDir mf,
        env := env.osEnv,
        capture := CaptureMode.combined } := by
  simp only [Build, h]
  have hspec : buildCmdSpec env input mf =
      { prog := "cargo",
        args := ["lambda", "build", "--bin", artifactName input.handler]
          ++ (if input.dev then [] else ["--release"])
          ++ (if (input.properties.getD Properties.zero).architecture = "arm_64" then
                ["--arm64"] else [])
          ++ ["--no-default-features"]
          ++ (match manifestFeatures env mf input.handler with
              | [] => []
              | _ :: _ => ["--features", joinComma (manifestFeatures env mf input.handler)]),
        dir := goDir mf,
        env := env.osEnv,
        capture := CaptureMode.combined } := by
    simp only [buildCmdSpec, buildArgs_shape, artifactName, manifestFeatures]
  split <;> simp [hspec]

/-- Witness for C1: the composed command for an arm64 release build of
`src/main.rs` with manifest features `a`, `b`. -/
theorem build_command_composition_witness :
    (Build stEmpty envA inputA).trace.cmd = some
      { prog := "cargo",
        args := ["lambda", "build", "--bin", "main", "--release", "--arm64",
                 "--no-default-features", "--features", "a,b"],
        dir := "/proj",
        env := ["PATH=/bin"],
        capture := CaptureMode.combined } := by
  have h := build_command_composition stEmpty envA inputA "/proj/Cargo.toml" rfl
  exact h

/-- C4: when the composed command exits non-zero, `Build` returns without
an error value a result whose error list is exactly the combined captured
output, with handler, sourcemaps and output directory at their zero
values, the directory map untouched and no copy performed. -/
theorem build_failure_result (st : AdapterState) (env : BuildEnv) (input : BuildInput)
    (mf : String) (h : env.findUp = Except.ok mf)
    (hfail : (env.runCmd (buildCmdSpec env input mf)).exitOk = false) :
    (Build st env input).result =
      Except.ok { handler := "", sourcemaps := [],
                  errors := [(env.runCmd (buildCmdSpec env input mf)).output],
                  out := "" } ∧
    (Build st env input).state = st ∧
    (Build st env input).trace.copied = none := by
  simp [Build, h, hfail]

/-- Witness for C4: a failing command with output `"boom"` yields the
single error entry `"boom"`, empty handler, and unchanged state. -/
theorem build_failure_result_witness :
    (Build stEmpty envF inputA).result =
      Except.ok { handler := "", sourcemaps := [], errors := ["boom"], out := "" } ∧
    (Build stEmpty envF inputA).state = stEmpty ∧
    (Build stEmpty envF inputA).trace.copied = none := by
  have h := build_failure_result stEmpty envF inputA "/proj/Cargo.toml" rfl rfl
  exact h

/-- C5: when the composed command succeeds, `Build` copies the artifact at
`<targetDir>/lambda/<artifactName>/bootstrap` (override target directory if
present, else `root/target`) to `<out>/bootstrap` byte-identically with
the destination parent directory created and the file flushed, records
the absolute project root for the function identifier without touching
other entries, and returns the fixed handler `"bootstrap"`, empty
sourcemaps, empty errors and the requested output directory. -/
theorem build_success_effects (st : AdapterState) (env : BuildEnv) (input : BuildInput)
    (mf : String) (bytes : List Nat)
    (h : env.findUp = Except.ok mf)
    (hok : (env.runCmd (buildCmdSpec env input mf)).exitOk = true)
    (hsrc : env.fs.files (buildArtifactSrc env input mf) = some bytes) :
    (Build st env input).result =
      Except.ok { handler := "bootstrap", sourcemaps := [], errors := [], out := input.out } ∧
    (Build st env input).state.directories input.functionID =
      some (goAbs env.cwd (goDir mf)) ∧
    (∀ k, k ≠ input.functionID →
      (Build st env input).state.directories k = st.directories k) ∧
    (Build st env input).trace.copied =
      some (buildArtifactSrc env input mf, goJoinList [input.out, "bootstrap"]) ∧
    (Build st env input).trace.fs.files (goJoinList [input.out, "bootstrap"]) = some bytes ∧
    (Build st env input).trace.fs.dirExists (goDir (goJoinList [input.out, "bootstrap"])) = true ∧
    (Build st env input).trace.fs.synced (goJoinList [input.out, "bootstrap"]) = true := by
  simp only [buildArtifactSrc, buildTargetPath, artifactName] at hsrc
  have hmem := mem_parentChain_self
    ((goDir (goJoinList [input.out, "bootstrap"])).length + 2)
    (goDir (goJoinList [input.out, "bootstrap"]))
  simp [Build, h, hok, copyFile, mkdirAllMark, hsrc, buildArtifactSrc, buildTargetPath,
    artifactName, hmem]
  intro k hk
  simp [hk]

/-- Witness for C5: a successful build of `main` copies the two artifact
bytes to `/outdir/bootstrap`, creates `/outdir`, flushes the copy, records
`fid ↦ /proj`, and reports the fixed handler name. -/
theorem build_success_effects_witness :
    (Build stEmpty envA inputA).result =
      Except.ok { handler := "bootstrap", sourcemaps := [], errors := [], out := "/outdir" } ∧
    (Build stEmpty envA inputA).state.directories "fid" = some "/proj" ∧
    (∀ k, k ≠ "fid" → (Build stEmpty envA inputA).state.directories k = none) ∧
    (Build stEmpty envA inputA).trace.copied =
      some ("/proj/target/lambda/main/bootstrap", "/outdir/bootstrap") ∧
    (Build stEmpty envA inputA).trace.fs.files "/outdir/bootstrap" = some [7, 9] ∧
    (Build stEmpty envA inputA).trace.fs.dirExists "/outdir" = true ∧
    (Build stEmpty envA inputA).trace.fs.synced "/outdir/bootstrap" = true := by
  have h := build_success_effects stEmpty envA inputA "/proj/Cargo.toml" [7, 9] rfl rfl rfl
  exact h

/-- C6: when no ancestor of the handler directory up to the filesystem
root holds the project manifest, the spec-modelled locator reports its
not-found error and `Build` propagates it as a fatal error value: no
result, no command, no copy, state untouched. -/
theorem build_no_manifest_fatal (st : AdapterState) (env : BuildEnv) (input : BuildInput)
    (stat : String → Bool)
    (henv : env.findUp = findUpFrom stat input.handler)
    (hnone : ∀ x ∈ parentChain ((goDir input.handler).length + 2) (goDir input.handler),
      stat (goJoinList [x, "Cargo.toml"]) = false) :
    (Build st env input).result = Except.error "NotFoundError" ∧
    (Build st env input).state = st ∧
    (Build st env input).trace.cmd = none ∧
    (Build st env input).trace.copied = none := by
  have hf : env.findUp = Except.error "NotFoundError" := by
    rw [henv, findUpFrom]
    exact findUpFuel_not_found stat "Cargo.toml" _ _ hnone
  simp [Build, hf]

/-- Witness for C6: with an empty filesystem the locator fails for
`/proj/src/main.rs` and `Build` surfaces the fatal error unchanged. -/
theorem build_no_manifest_fatal_witness :
    (Build stEmpty envNF inputA).result = Except.error "NotFoundError" ∧
    (Build stEmpty envNF inputA).state = stEmpty ∧
    (Build stEmpty envNF inputA).trace.cmd = none ∧
    (Build stEmpty envNF inputA).trace.copied = none := by
  have h := build_no_manifest_fatal stEmpty envNF inputA statNone rfl (by decide)
  exact h

/-- C7: malformed properties blob, malformed manifest and malformed config
override never fail `Build`: the call still returns a result value, the
command is composed with the default architecture (no `--arm64`) and the
empty feature set (no `--features`), and on success the default
`root/target` directory locates the artifact. -/
theorem build_parse_failures_degrade (st : AdapterState) (env : BuildEnv) (input : BuildInput)
    (mf : String)
    (h : env.findUp = Except.ok mf)
    (hprops : input.properties = none)
    (hman : env.parseManifest mf = none)
    (hcfg : ∀ f, env.parseConfig f = none) :
    (∃ bo, (Build st env input).result = Except.ok bo) ∧
    (Build st env input).trace.cmd = some
      { prog := "cargo",
        args := buildArgs (artifactName input.handler) input.dev "" [],
        dir := goDir mf, env := env.osEnv, capture := CaptureMode.combined } ∧
    buildArgs (artifactName input.handler) input.dev "" [] =
      ["lambda", "build", "--bin", artifactName input.handler]
        ++ (if input.dev then [] else ["--release"]) ++ ["--no-default-features"] ∧
    ((env.runCmd (buildCmdSpec env input mf)).exitOk = true →
      (Build st env input).trace.copied =
        some (goJoinList [goJoinList [goDir mf, "target"], "lambda",
                          artifactName input.handler, "bootstrap"],
              goJoinList [input.out, "bootstrap"])) := by
  have hconf : effectiveConfig env (goDir mf) = CargoConfig.zero := by
    unfold effectiveConfig
    cases FindClosestCargoConfig env.stat (goDir mf) with
    | none => rfl
    | some f => simp [hcfg f]
  have hspec : buildCmdSpec env input mf =
      { prog := "cargo",
        args := buildArgs (artifactName input.handler) input.dev "" [],
        dir := goDir mf, env := env.osEnv, capture := CaptureMode.combined } := by
    simp [buildCmdSpec, hprops, hman, artifactName, Properties.zero, CargoToml.zero,
      findFeatures]
  refine ⟨?_, ?_, ?_, ?_⟩
  · simp only [Build, h]
    split
    · exact ⟨_, rfl⟩
    · exact ⟨_, rfl⟩
  · simp only [Build, h]
    split <;> simp [hspec]
  · rw [buildArgs_shape]
    cases input.dev <;> simp
  · intro hok
    simp [Build, h, hok, hconf, CargoConfig.zero, artifactName]

/-- Witness for C7: all three parse failures at once still produce a
successful build using the default architecture, feature set and target
directory. -/
theorem build_parse_failures_degrade_witness :
    (∃ bo, (Build stEmpty envM inputM).result = Except.ok bo) ∧
    (Build stEmpty envM inputM).trace.cmd = some
      { prog := "cargo",
        args := buildArgs (artifactName "/proj/src/main.rs") false "" [],
        dir := "/proj", env := ["PATH=/bin"], capture := CaptureMode.combined } ∧
    buildArgs (artifactName "/proj/src/main.rs") false "" [] =
      ["lambda", "build", "--bin", artifactName "/proj/src/main.rs"]
        ++ (if false then [] else ["--release"]) ++ ["--no-default-features"] ∧
    ((envM.runCmd (buildCmdSpec envM inputM "/proj/Cargo.toml")).exitOk = true →
      (Build stEmpty envM inputM).trace.copied =
        some (goJoinList [goJoinList ["/proj", "target"], "lambda",
                          artifactName "/proj/src/main.rs", "bootstrap"],
              goJoinList ["/outdir", "bootstrap"])) := by
  have h := build_parse_failures_degrade stEmpty envM inputM "/proj/Cargo.toml"
    rfl rfl rfl (fun _ => rfl)
  exact h

/-- One unfolding of the fueled config walk. -/
theorem findCargoConfigFuel_succ (stat : String → Bool) (n : Nat) (d : String) :
    findCargoConfigFuel stat (n + 1) d =
      match configAt stat d with
      | some f => some f
      | none =>
        if goDir d = d then none else findCargoConfigFuel stat n (goDir d) := rfl

/-- The fueled config walk checks each directory of the ancestor chain in
turn for an accepted config file. -/
theorem findCargoConfigFuel_eq (stat : String → Bool) :
    ∀ (n : Nat) (d : String),
      findCargoConfigFuel stat (n + 1) d = firstConfigHit stat (parentChain n d) := by
  intro n
  induction n with
  | zero =>
    intro d
    rw [findCargoConfigFuel_succ]
    by_cases hp : goDir d = d <;>
      cases hc : configAt stat d <;>
        simp [parentChain, firstConfigHit, findCargoConfigFuel, hc, hp]
  | succ m ih =>
    intro d
    rw [findCargoConfigFuel_succ]
    by_cases hp : goDir d = d <;>
      cases hc : configAt stat d <;>
        simp [parentChain, firstConfigHit, hc, hp, ih]

/-- C2 (amended): the config-override search returns the first hit along
the ancestor chain — the first ancestor whose `.cargo` subdirectory
contains `config.toml` (preferred) or `config`; an ancestor whose `.cargo`
subdirectory contains neither file is skipped and the walk continues, and
with no hit along the whole chain nothing is returned. -/
theorem findClosestCargoConfig_first_file_hit (stat : String → Bool) (p : String) :
    FindClosestCargoConfig stat p = firstConfigHit stat (parentChain (p.length + 1) p) :=
  findCargoConfigFuel_eq stat (p.length + 1) p

/-- Counterexample for C2 as stated: `/a/b/.cargo` exists but holds
neither accepted file, so the first ancestor containing the config
subdirectory yields nothing, yet the walk continues and returns
the file `/a/.cargo/config.toml`; the stopped walk of the claim returns
nothing. -/
theorem findClosestCargoConfig_counterexample :
    FindClosestCargoConfig statB "/a/b" = some "/a/.cargo/config.toml" ∧
    statB (goJoinList ["/a/b", ".cargo"]) = true ∧
    configAt statB "/a/b" = none ∧
    claimConfigSearch statB ("/a/b".length + 2) "/a/b" = none ∧
    FindClosestCargoConfig statB "/a/b" ≠ claimConfigSearch statB ("/a/b".length + 2) "/a/b" := by
  refine ⟨rfl, rfl, rfl, rfl, by decide⟩

/-- C3 (amended): `ShouldRebuild` is true exactly when the file has the
`.rs` suffix, a root is recorded for the function, relativization
succeeds, and the relative path does not have the literal string `".."`
as a prefix (which also rejects in-root files whose first segment merely
starts with two dots). -/
theorem shouldRebuild_characterization (st : AdapterState) (fid file : String) :
    ShouldRebuild st fid file = true ↔
      hasSfx file ".rs" = true ∧
      ∃ root rel, st.directories fid = some root ∧ goRel root file = some rel ∧
        hasPfx rel ".." = false := by
  unfold ShouldRebuild
  by_cases hs : hasSfx file ".rs" = true
  · cases hd : st.directories fid with
    | none => simp [hs, hd]
    | some root =>
      cases hr : goRel root file with
      | none => simp [hs, hd, hr]
      | some rel => simp [hs, hd, hr]
  · simp [hs]

/-- Witness for C3 (amended): a `.rs` file inside the recorded root is
rebuilt. -/
theorem shouldRebuild_characterization_witness :
    ShouldRebuild stC "f" "/root/src/x.rs" = true :=
  (shouldRebuild_characterization stC "f" "/root/src/x.rs").mpr
    ⟨by decide, "/root", "src/x.rs", by decide, by decide, by decide⟩

/-- Counterexample for C3 as stated: `/root/..foo.rs` lies inside the
recorded root `/root`, has the `.rs` extension, and its relative path
`..foo.rs` does not begin with a parent-directory traversal segment, yet
`ShouldRebuild` answers false because of the plain string-prefix test. -/
theorem shouldRebuild_counterexample :
    ShouldRebuild stC "f" "/root/..foo.rs" = false ∧
    goExt "/root/..foo.rs" = ".rs" ∧
    hasSfx "/root/..foo.rs" ".rs" = true ∧
    stC.directories "f" = some "/root" ∧
    goRel "/root" "/root/..foo.rs" = some "..foo.rs" ∧
    beginsParentSeg "..foo.rs" = false := by
  decide

/-! ## C8: the log fan-in -/

/-- A merge of two streams carries exactly the bytes of both. -/
theorem Merge.length_eq {xs ys zs : List Nat} (h : Merge xs ys zs) :
    zs.length = xs.length + ys.length := by
  induction h with
  | nil => rfl
  | left _ ih => simp [ih]; omega
  | right _ ih => simp [ih]; omega

/-- Appending one byte taken from the left stream preserves merging. -/
theorem Merge.snocLeft {a : Nat} {xs ys zs : List Nat} (h : Merge xs ys zs) :
    Merge (xs ++ [a]) ys (zs ++ [a]) := by
  induction h with
  | nil => exact Merge.left Merge.nil
  | left _ ih => exact Merge.left ih
  | right _ ih => exact Merge.right ih

/-- Appending one byte taken from the right stream preserves merging. -/
theorem Merge.snocRight {a : Nat} {xs ys zs : List Nat} (h : Merge xs ys zs) :
    Merge xs (ys ++ [a]) (zs ++ [a]) := by
  induction h with
  | nil => exact Merge.right Merge.nil
  | left _ ih => exact Merge.left ih
  | right _ ih => exact Merge.right ih

/-- Every step of the fan-in preserves the merge invariant. -/
theorem logsInv_step {o e : List Nat} {s t : LogsState}
    (hinv : LogsInv o e s) (hstep : LogsStep s t) : LogsInv o e t := by
  obtain ⟨⟨oc, ec, ho, he, hm⟩, _⟩ := hinv
  cases hstep with
  | copyOut b os es em =>
    refine ⟨⟨oc ++ [b], ec, ?_, ?_, ?_⟩, by simp⟩
    · simpa [List.append_assoc] using ho
    · exact he
    · exact Merge.snocLeft hm
  | copyErr b os es em =>
    refine ⟨⟨oc, ec ++ [b], ?_, ?_, ?_⟩, by simp⟩
    · exact ho
    · simpa [List.append_assoc] using he
    · exact Merge.snocRight hm
  | close em =>
    exact ⟨⟨oc, ec, ho, he, hm⟩, fun _ => ⟨rfl, rfl⟩⟩

/-- The merge invariant holds at every reachable state. -/
theorem logsInv_reach {o e : List Nat} {s t : LogsState}
    (hr : LogsReach s t) (hinv : LogsInv o e s) : LogsInv o e t := by
  induction hr with
  | refl => exact hinv
  | tail _ hstep ih => exact logsInv_step ih hstep

/-- C8: in every run of the `Logs` fan-in from streams with `N` and `M`
bytes, the merged pipe is closed only once both copy loops have drained
their streams, and at that point it has emitted an interleaving of the two
streams of exactly `N + M` bytes, with no loss or duplication. -/
theorem logs_fan_in (o e : List Nat) (s : LogsState)
    (h : LogsReach ⟨o, e, [], false⟩ s) (hc : s.closed = true) :
    s.outRem = [] ∧ s.errRem = [] ∧ Merge o e s.emitted ∧
      s.emitted.length = o.length + e.length := by
  have hinv : LogsInv o e s :=
    logsInv_reach h ⟨⟨[], [], by simp, by simp, Merge.nil⟩, by simp⟩
  obtain ⟨⟨oc, ec, ho, he, hm⟩, hcl⟩ := hinv
  obtain ⟨hor, her⟩ := hcl hc
  rw [hor] at ho
  rw [her] at he
  simp only [List.append_nil] at ho he
  subst ho
  subst he
  exact ⟨hor, her, hm, Merge.length_eq hm⟩

/-- Witness for C8: the run that copies the single stdout byte, then the
single stderr byte, then closes, emits both bytes and only then closes. -/
theorem logs_fan_in_witness :
    Merge [1] [2] [1, 2] ∧ ([1, 2] : List Nat).length = [1].length + [2].length := by
  have hreach : LogsReach ⟨[1], [2], [], false⟩ ⟨[], [], [1, 2], true⟩ :=
    Relation.ReflTransGen.tail
      (Relation.ReflTransGen.tail
        (Relation.ReflTransGen.tail Relation.ReflTransGen.refl
          (LogsStep.copyOut 1 [] [2] []))
        (LogsStep.copyErr 2 [] [] [1]))
      (LogsStep.close [1, 2])
  have h := logs_fan_in [1] [2] ⟨[], [], [1, 2], true⟩ hreach rfl
  exact ⟨h.2.2.1, h.2.2.2⟩

end SstRust

